import Mathlib

/-!
Verification of the notes-backend REST service (Express + Mongoose).

The route handlers in `src/controllers/notes.js` and `src/controllers/login.js`
are embedded shallowly: each handler becomes a Lean function from its inputs
(request parts, database state) to the list of observable events it produces
(responses sent, errors forwarded to the error middleware) together with the
resulting database state.

The Mongoose models (`models/note.js`, `models/user.js`) and the centralized
error middleware are part of the repository but not present under `src/`;
the definitions for those pieces are modelled from the spec (each such
definition carries a doc comment saying so).
-/

/-- A persisted note document: `id` (store-generated identifier string),
`content`, `important`, and `user` (the owner's user id), matching the fields
the POST handler writes. -/
structure Note where
  id : String
  content : String
  important : Bool
  user : Nat
deriving DecidableEq, Repr

/-- A persisted user document: `username`, display `name`, `passwordHash`, and
`notes`, the list of owned note ids appended to on each creation. -/
structure User where
  id : Nat
  username : String
  name : String
  passwordHash : String
  notes : List String
deriving DecidableEq, Repr

/-- The database state: the notes collection, the users collection, and a
counter from which fresh note identifiers are generated. -/
structure DB where
  notes : List Note
  users : List User
  nextNoteId : Nat
deriving DecidableEq, Repr

/-- The payload of a verified bearer token: `jwt.sign` embeds `username` and
`id`; a verified token may still lack the `id` field, modelled by `Option`. -/
structure DecodedToken where
  id : Option Nat
deriving DecidableEq, Repr

/-- A JSON request body for note creation or update: `content` and `important`
are each either present or absent. -/
structure ReqBody where
  content : Option String
  important : Option Bool
deriving DecidableEq, Repr

/-- Errors forwarded to `next(error)` by the handlers: Mongoose `CastError`
(malformed id), Mongoose `ValidationError` (schema violation on save),
JavaScript `TypeError` (property access on `null`), and `JsonWebTokenError`
(token missing or failing verification). -/
inductive HErr where
  | castError
  | validationError
  | typeError
  | jwtError
deriving DecidableEq, Repr

/-- JSON bodies appearing in responses. -/
inductive Body where
  | empty
  | jsNull
  | note (n : Note)
  | notes (ns : List Note)
  | errJson (msg : String)
  | loginOk (tok username name : String)
deriving DecidableEq, Repr

/-- An observable event of a handler run: a response sent, or an error
forwarded to the error-handling middleware. -/
inductive Ev where
  | resp (status : Nat) (body : Body)
  | nextErr (e : HErr)
deriving DecidableEq, Repr

/-- JavaScript `String.prototype.startsWith` on whole strings. -/
def jsStartsWith (s pre : String) : Bool :=
  pre.data.isPrefixOf s.data

/-- Replace the first occurrence of `pat` (scanning left to right) by `rep`,
the semantics of JavaScript `String.prototype.replace` with a string pattern. -/
def replaceFirstAux (pat rep : List Char) : List Char → List Char
  | [] => if pat.isEmpty then rep else []
  | c :: rest =>
    if pat.isPrefixOf (c :: rest) then rep ++ (c :: rest).drop pat.length
    else c :: replaceFirstAux pat rep rest

/-- JavaScript `s.replace(pat, rep)` with a string pattern: only the first
occurrence is replaced. -/
def replaceFirst (s pat rep : String) : String :=
  ⟨replaceFirstAux pat.data rep.data s.data⟩

/-- `getTokenFrom` from `src/controllers/notes.js`: if the authorization header
is present and starts with `Bearer` (case-sensitive), strip the first
occurrence of the substring `Bearer ` and return the rest; otherwise `null`. -/
def getTokenFrom (authorization : Option String) : Option String :=
  match authorization with
  | some a =>
    if jsStartsWith a "Bearer" then some (replaceFirst a "Bearer " "")
    else none
  | none => none

/-- `jwt.verify(token, secret)`: throws `JsonWebTokenError` when the token is
`null` or fails verification; otherwise yields the decoded payload. The
signature check itself is abstracted as the `verify` parameter (what the
secret accepts). -/
def jwtVerify (verify : String → Option DecodedToken) :
    Option String → Except HErr DecodedToken
  | none => .error .jwtError
  | some t =>
    match verify t with
    | none => .error .jwtError
    | some d => .ok d

/-- Hexadecimal digit characters, the alphabet of the store's identifiers. -/
def isHexCh (c : Char) : Bool :=
  (('0' ≤ c && c ≤ '9') || ('a' ≤ c && c ≤ 'f') || ('A' ≤ c && c ≤ 'F'))

/-- Modelled from the spec: the store's accepted identifier format (a Mongo
ObjectId, 24 hexadecimal characters); `findById`/`deleteById`/`updateById`
fail with an `InvalidIdentifier` condition (`CastError`) on any other string.
The model files defining the schemas are not under `src/`. -/
def validId (s : String) : Bool :=
  s.length == 24 && s.data.all isHexCh

/-- Fresh identifier generation for inserted notes (system-generated, unique;
the concrete scheme pads the creation counter to 24 hex digits). -/
def genId (n : Nat) : String :=
  let h := Nat.toDigits 16 n
  ⟨List.replicate (24 - h.length) '0' ++ h⟩

/-- Modelled from the spec: the Note schema (not under `src/`) requires
non-empty `content`; `note.save()` rejects a document whose content is missing
or empty with a `ValidationError` and persists it otherwise, assigning a fresh
id. -/
def noteSave (content? : Option String) (important : Bool) (uid : Nat)
    (db : DB) : Except HErr (Note × DB) :=
  match content? with
  | none => .error .validationError
  | some c =>
    if c = "" then .error .validationError
    else
      let n : Note := ⟨genId db.nextNoteId, c, important, uid⟩
      .ok (n, { db with notes := db.notes ++ [n], nextNoteId := db.nextNoteId + 1 })

/-- `User.findById` on the decoded token's id: an absent id (`undefined`)
finds nothing; a present id finds the first user with that id. -/
def userFindById (oid : Option Nat) (db : DB) : Option User :=
  match oid with
  | none => none
  | some i => db.users.find? (fun u => u.id == i)

/-- `user.save()` after mutating a fetched user document: the stored document
with that id is replaced. -/
def userSaveReplace (u : User) (db : DB) : DB :=
  { db with users := db.users.map (fun v => if v.id == u.id then u else v) }

/-- Modelled from the spec: the store's `findById` for notes (§4.1): a
malformed id raises `CastError`; otherwise the note with that id, if any. -/
def noteFindById (idStr : String) (db : DB) : Except HErr (Option Note) :=
  if validId idStr then .ok (db.notes.find? (fun n => n.id == idStr))
  else .error .castError

/-- Modelled from the spec: the store's `updateById` (§4.1): a malformed id
raises `CastError`; an id matching no note yields `null` and leaves the store
unchanged; otherwise the present fields of the update document replace the
stored ones (absent fields are ignored) and the updated note is returned
(`new: true`). Schema validators are not run on updates. -/
def noteFindByIdAndUpdate (idStr : String) (body : ReqBody) (db : DB) :
    Except HErr (Option Note × DB) :=
  if validId idStr then
    match db.notes.find? (fun n => n.id == idStr) with
    | none => .ok (none, db)
    | some n =>
      let n2 : Note := { n with content := body.content.getD n.content,
                                important := body.important.getD n.important }
      .ok (some n2, { db with notes := db.notes.map (fun m => if m.id == idStr then n2 else m) })
  else .error .castError

/-- Modelled from the spec: the store's `deleteById` (§4.1): a malformed id
raises `CastError`; otherwise the note with that id, if any, is removed. -/
def noteFindByIdAndRemove (idStr : String) (db : DB) : Except HErr DB :=
  if validId idStr then
    .ok { db with notes := db.notes.filter (fun n => !(n.id == idStr)) }
  else .error .castError

/-- Modelled from the spec: the centralized error-to-status translator (§7),
the error middleware not present under `src/`: `InvalidIdentifier`
(`CastError`) and `ValidationError` map to 400, a bad or missing token to 401,
and any other fault to a generic 500. -/
def errorHandler : HErr → Nat
  | .castError => 400
  | .validationError => 400
  | .jwtError => 401
  | .typeError => 500

/-- `GET /api/notes` (list handler): responds 200 with all notes. -/
def notesIndex (db : DB) : List Ev × DB :=
  ([Ev.resp 200 (Body.notes db.notes)], db)

/-- `GET /api/notes/:id`: `Note.findById`; a found note is sent with 200, a
missing one yields `404` via `response.status(404).end()`, and a store fault
(malformed id) is caught and forwarded with `next(error)`. -/
def notesGetById (idStr : String) (db : DB) : List Ev × DB :=
  match noteFindById idStr db with
  | .error e => ([Ev.nextErr e], db)
  | .ok (some n) => ([Ev.resp 200 (Body.note n)], db)
  | .ok none => ([Ev.resp 404 Body.empty], db)

/-- `POST /api/notes`: verifies the bearer token; if the decoded token lacks
an id, sends a 401 `invalid token` response but continues; fetches the user by
the token id, builds a note with `content`, `important || false` and the
user's id, saves it, appends its id to the user's `notes` and saves the user,
then responds 201 with the saved note; any error thrown along the way is
caught and forwarded with `next(error)` (after any response already sent). -/
def notesPost (verify : String → Option DecodedToken) (auth : Option String)
    (body : ReqBody) (db : DB) : List Ev × DB :=
  match jwtVerify verify (getTokenFrom auth) with
  | .error e => ([Ev.nextErr e], db)
  | .ok decoded =>
    let flagged : List Ev :=
      if decoded.id.isNone then [Ev.resp 401 (Body.errJson "invalid token")] else []
    match userFindById decoded.id db with
    | none => (flagged ++ [Ev.nextErr .typeError], db)
    | some u =>
      match noteSave body.content (body.important.getD false) u.id db with
      | .error e => (flagged ++ [Ev.nextErr e], db)
      | .ok (savedNote, db1) =>
        let db2 := userSaveReplace { u with notes := u.notes ++ [savedNote.id] } db1
        (flagged ++ [Ev.resp 201 (Body.note savedNote)], db2)

/-- `DELETE /api/notes/:id`: `Note.findByIdAndRemove` then 204 unconditionally;
a store fault is forwarded with `next(error)`. -/
def notesDelete (idStr : String) (db : DB) : List Ev × DB :=
  match noteFindByIdAndRemove idStr db with
  | .error e => ([Ev.nextErr e], db)
  | .ok db1 => ([Ev.resp 204 Body.empty], db1)

/-- `PUT /api/notes/:id`: builds `{content, important}` from the body, calls
`Note.findByIdAndUpdate(id, note, { new: true })` and passes whatever it
resolves to — updated note or `null` — straight to `response.json`; a store
fault is forwarded with `next(error)`. -/
def notesPut (idStr : String) (body : ReqBody) (db : DB) : List Ev × DB :=
  match noteFindByIdAndUpdate idStr body db with
  | .error e => ([Ev.nextErr e], db)
  | .ok (some n, db1) => ([Ev.resp 200 (Body.note n)], db1)
  | .ok (none, db1) => ([Ev.resp 200 Body.jsNull], db1)

/-- `POST /api/login` from `src/controllers/login.js`: looks up the user by
username; `passwordCorrect` is `false` without calling `bcrypt.compare` when
the user is absent; if not both user and password check out, sends a 401 with
an error message — and continues; building the token payload from a `null`
user then throws a `TypeError` which the catch block forwards, while for a
present user a token is signed and a 200 is sent. `check` abstracts
`bcrypt.compare`, `sign` abstracts `jwt.sign`. The handler never writes to
the stores. -/
def loginPost (check : String → String → Bool) (sign : String → Nat → String)
    (username password : String) (db : DB) : List Ev :=
  let user := db.users.find? (fun u => u.username == username)
  let passwordCorrect :=
    match user with
    | none => false
    | some u => check password u.passwordHash
  let flagged : List Ev :=
    if user.isSome && passwordCorrect then []
    else [Ev.resp 401 (Body.errJson "username or password is invalid")]
  match user with
  | none => flagged ++ [Ev.nextErr .typeError]
  | some u => flagged ++ [Ev.resp 200 (Body.loginOk (sign u.username u.id) u.username u.name)]

/-- The note-store invariant of §3: every persisted note has non-empty content
and an owner reference resolving to a stored user. -/
def dbInvB (db : DB) : Bool :=
  db.notes.all (fun n => !(n.content == "") && db.users.any (fun u => u.id == n.user))

/-- The contents appearing in the list result of `GET /api/notes`. -/
def listContents (db : DB) : List String :=
  db.notes.map (fun n => n.content)

/-- The HTTP status a single event produces: the status of a sent response, or
the status the centralized error translator assigns to a forwarded error. -/
def evStatus : Ev → Nat
  | .resp s _ => s
  | .nextErr e => errorHandler e

/- Concrete fixtures used by witnesses and counterexamples. -/

/-- A well-formed 24-hex-character identifier. -/
def idA : String := "aaaaaaaaaaaaaaaaaaaaaaaa"

/-- A second well-formed identifier, distinct from `idA`. -/
def idB : String := "bbbbbbbbbbbbbbbbbbbbbbbb"

/-- The empty database. -/
def db0 : DB := ⟨[], [], 0⟩

/-- A stored user owning the note `idA`. -/
def userX : User := ⟨1, "root", "Root", "hash", [idA]⟩

/-- A stored note owned by `userX`. -/
def noteX : Note := ⟨idA, "HTML is easy", false, 1⟩

/-- A database with one user and one note, satisfying the invariant. -/
def db1 : DB := ⟨[noteX], [userX], 1⟩

/-- Two notes with the same content under different ids. -/
def noteD2 : Note := ⟨idB, "HTML is easy", true, 1⟩

/-- A database holding two notes that share their content. -/
def db2 : DB := ⟨[noteX, noteD2], [userX], 2⟩

/- Helper lemmas shared by the claim theorems. -/

/-- A list is a prefix (in the `Bool` sense of `isPrefixOf`) of itself followed
by anything. -/
theorem isPrefixOf_append_self (l t : List Char) : l.isPrefixOf (l ++ t) = true := by
  induction l with
  | nil => simp [List.isPrefixOf]
  | cons c cs ih => simp [List.isPrefixOf, ih]

/-- Replacing the first occurrence of a nonempty pattern in a string that
starts with that very pattern removes exactly that leading occurrence. -/
theorem replaceFirstAux_append (pat rep t : List Char) (h : pat ≠ []) :
    replaceFirstAux pat rep (pat ++ t) = rep ++ t := by
  cases pat with
  | nil => exact absurd rfl h
  | cons c cs =>
    have h1 : (c :: cs).isPrefixOf (c :: (cs ++ t)) = true :=
      isPrefixOf_append_self (c :: cs) t
    show replaceFirstAux (c :: cs) rep (c :: (cs ++ t)) = rep ++ t
    unfold replaceFirstAux
    rw [if_pos h1]
    show rep ++ List.drop (c :: cs).length (c :: (cs ++ t)) = rep ++ t
    have h2 : List.drop (c :: cs).length (c :: (cs ++ t)) = t := by
      show List.drop (cs.length + 1) (c :: (cs ++ t)) = t
      rw [List.drop_succ_cons]
      exact List.drop_left cs t
    rw [h2]

/-- A header of the exact shape `Bearer <rest>` yields `rest` as the token:
only the leading occurrence of `Bearer ` is stripped. -/
theorem getTokenFrom_strips_first (s : String) :
    getTokenFrom (some ("Bearer " ++ s)) = some s := by
  have hd : ("Bearer " ++ s).data = "Bearer ".data ++ s.data := String.data_append "Bearer " s
  have hpre : jsStartsWith ("Bearer " ++ s) "Bearer" = true := by
    unfold jsStartsWith
    rw [hd]
    have hsplit : "Bearer ".data ++ s.data = "Bearer".data ++ (' ' :: s.data) := rfl
    rw [hsplit]
    exact isPrefixOf_append_self _ _
  have hrep : replaceFirst ("Bearer " ++ s) "Bearer " "" = s := by
    unfold replaceFirst
    rw [hd, replaceFirstAux_append "Bearer ".data "".data s.data (by decide)]
    show String.mk ([] ++ s.data) = s
    rw [List.nil_append]
  simp [getTokenFrom, hpre, hrep]

/-- C1: for every note-creation request whose bearer token verifies but whose
decoded payload lacks a user id, the handler sends the 401 `invalid token`
response but does not halt: processing continues past the flag, the user
lookup and note construction are still attempted (the lookup of the absent id
finds nothing, so dereferencing the null user raises a `TypeError` that is
forwarded after the 401 was already sent). -/
theorem C1_create_flags_401_but_continues
    (verify : String → Option DecodedToken) (auth : Option String)
    (body : ReqBody) (db : DB) (t : String)
    (h1 : getTokenFrom auth = some t) (h2 : verify t = some ⟨none⟩) :
    notesPost verify auth body db =
      ([Ev.resp 401 (Body.errJson "invalid token"), Ev.nextErr HErr.typeError], db) := by
  simp [notesPost, jwtVerify, h1, h2, userFindById]

/-- Witness for C1 at a concrete request and database. -/
theorem C1_create_flags_401_but_continues_w :
    notesPost (fun _ => some ⟨none⟩) (some "Bearer abc") ⟨some "hi", none⟩ db0 =
      ([Ev.resp 401 (Body.errJson "invalid token"), Ev.nextErr HErr.typeError], db0) :=
  C1_create_flags_401_but_continues (fun _ => some ⟨none⟩) (some "Bearer abc")
    ⟨some "hi", none⟩ db0 "abc" rfl rfl

/-- C2 counterexample: the claim says a PUT whose well-formed id matches no
stored note yields a 404; on the code, `findByIdAndUpdate` resolves to `null`
and the handler passes it straight to `response.json`, so the request gets a
200 with a `null` body and no event of the run carries status 404. -/
theorem C2_put_missing_counterexample :
    notesPut idB ⟨none, none⟩ db1 = ([Ev.resp 200 Body.jsNull], db1) ∧
    ((notesPut idB ⟨none, none⟩ db1).1.all (fun e => !(evStatus e == 404))) = true := by
  constructor
  · rfl
  · rfl

/-- C2 (amended): for every PUT whose id is well formed but matches no stored
note, the handler responds 200 with a `null` JSON body (not 404) and leaves
the store unchanged. -/
theorem C2_put_missing_returns_null_200 (idStr : String) (body : ReqBody) (db : DB)
    (hv : validId idStr = true)
    (hn : db.notes.find? (fun n => n.id == idStr) = none) :
    notesPut idStr body db = ([Ev.resp 200 Body.jsNull], db) := by
  simp [notesPut, noteFindByIdAndUpdate, hv, hn]

/-- Witness for the amended C2 at a concrete id and database. -/
theorem C2_put_missing_returns_null_200_w :
    notesPut idB ⟨none, none⟩ db1 = ([Ev.resp 200 Body.jsNull], db1) :=
  C2_put_missing_returns_null_200 idB ⟨none, none⟩ db1 rfl rfl

/-- C3: for every login whose username matches no stored user or whose
password fails the hash comparison, the first response sent is the 401 with
the error message; and when the user is absent the comparison is skipped: the
whole outcome is independent of the comparison function, with `passwordCorrect`
fixed to `false`. -/
theorem C3_login_invalid_credentials
    (check : String → String → Bool) (sign : String → Nat → String)
    (username password : String) (db : DB)
    (h : db.users.find? (fun u => u.username == username) = none ∨
         ∃ u, db.users.find? (fun v => v.username == username) = some u ∧
              check password u.passwordHash = false) :
    (loginPost check sign username password db).head? =
        some (Ev.resp 401 (Body.errJson "username or password is invalid")) ∧
    (db.users.find? (fun u => u.username == username) = none →
      ∀ check2 : String → String → Bool,
        loginPost check2 sign username password db =
          [Ev.resp 401 (Body.errJson "username or password is invalid"),
           Ev.nextErr HErr.typeError]) := by
  constructor
  · rcases h with h | ⟨u, hu, hc⟩
    · simp [loginPost, h]
    · simp [loginPost, hu, hc]
  · intro h2 check2
    simp [loginPost, h2]

/-- Witness for C3: logging in with an unknown username against a concrete
database responds 401 first. -/
theorem C3_login_invalid_credentials_w :
    (loginPost (fun _ _ => false) (fun _ _ => "tok") "ghost" "pw" db1).head? =
      some (Ev.resp 401 (Body.errJson "username or password is invalid")) :=
  (C3_login_invalid_credentials (fun _ _ => false) (fun _ _ => "tok") "ghost" "pw" db1
    (Or.inl rfl)).1

/-- C5: for every creation request with a verifying token carrying a user id
that resolves to a stored user and a non-empty content field, the handler
persists a note owned by that user (with `important` defaulting to `false`
when absent or falsy, via `getD false`), appends the new note's id to that
user's `notes` list in the stored user record, and responds 201 with the
created note. -/
theorem C5_create_success
    (verify : String → Option DecodedToken) (auth : Option String)
    (body : ReqBody) (db : DB) (t : String) (uid : Nat) (u : User) (c : String)
    (h1 : getTokenFrom auth = some t)
    (h2 : verify t = some ⟨some uid⟩)
    (h3 : db.users.find? (fun v => v.id == uid) = some u)
    (h4 : body.content = some c) (h5 : c ≠ "") :
    notesPost verify auth body db =
      ([Ev.resp 201 (Body.note ⟨genId db.nextNoteId, c, body.important.getD false, u.id⟩)],
       { notes := db.notes ++ [⟨genId db.nextNoteId, c, body.important.getD false, u.id⟩],
         users := db.users.map (fun v =>
           if v.id == u.id then { u with notes := u.notes ++ [genId db.nextNoteId] } else v),
         nextNoteId := db.nextNoteId + 1 }) := by
  simp [notesPost, jwtVerify, h1, h2, userFindById, h3, noteSave, h4, h5, userSaveReplace]

/-- Witness for C5: a concrete successful creation against `db1`. -/
theorem C5_create_success_w :
    notesPost (fun _ => some ⟨some 1⟩) (some "Bearer t") ⟨some "hi", some true⟩ db1 =
      ([Ev.resp 201 (Body.note ⟨genId 1, "hi", true, 1⟩)],
       { notes := db1.notes ++ [⟨genId 1, "hi", true, 1⟩],
         users := db1.users.map (fun v =>
           if v.id == 1 then { userX with notes := userX.notes ++ [genId 1] } else v),
         nextNoteId := 2 }) :=
  C5_create_success (fun _ => some ⟨some 1⟩) (some "Bearer t") ⟨some "hi", some true⟩
    db1 "t" 1 userX "hi" rfl rfl rfl rfl (by decide)

/-- C6: a creation request whose body lacks `content` never changes the
database (no note persisted, no user record modified), and — when the request
is otherwise well-formed (verifying token whose id resolves to a user) — the
only event is the forwarded `ValidationError`, which the error translator
maps to 400. -/
theorem C6_create_missing_content
    (verify : String → Option DecodedToken) (auth : Option String)
    (body : ReqBody) (db : DB)
    (h : body.content = none) :
    (notesPost verify auth body db).2 = db ∧
    (∀ t uid u, getTokenFrom auth = some t → verify t = some ⟨some uid⟩ →
      db.users.find? (fun v => v.id == uid) = some u →
      notesPost verify auth body db = ([Ev.nextErr HErr.validationError], db) ∧
      errorHandler HErr.validationError = 400) := by
  constructor
  · unfold notesPost
    rcases jwtVerify verify (getTokenFrom auth) with e | d
    · rfl
    · rcases hu : userFindById d.id db with _ | u <;> simp [hu, noteSave, h]
  · intro t uid u h1 h2 h3
    refine ⟨?_, rfl⟩
    simp [notesPost, jwtVerify, h1, h2, userFindById, h3, noteSave, h]

/-- Witness for C6: a concrete content-less creation against `db1`. -/
theorem C6_create_missing_content_w :
    (notesPost (fun _ => some ⟨some 1⟩) (some "Bearer t") ⟨none, some false⟩ db1).2 = db1 ∧
    notesPost (fun _ => some ⟨some 1⟩) (some "Bearer t") ⟨none, some false⟩ db1 =
      ([Ev.nextErr HErr.validationError], db1) :=
  ⟨(C6_create_missing_content (fun _ => some ⟨some 1⟩) (some "Bearer t")
      ⟨none, some false⟩ db1 rfl).1,
   ((C6_create_missing_content (fun _ => some ⟨some 1⟩) (some "Bearer t")
      ⟨none, some false⟩ db1 rfl).2 "t" 1 userX rfl rfl rfl).1⟩

/-- C7: fetching a note by id sends the note with 200 when the id is well
formed and matches, a 404 when the id is well formed but matches nothing, and
for a malformed id forwards a `CastError` that the error translator maps to
400 — never 404 or 500. -/
theorem C7_get_by_id (idStr : String) (db : DB) :
    (∀ n, validId idStr = true → db.notes.find? (fun m => m.id == idStr) = some n →
      notesGetById idStr db = ([Ev.resp 200 (Body.note n)], db)) ∧
    (validId idStr = true → db.notes.find? (fun m => m.id == idStr) = none →
      notesGetById idStr db = ([Ev.resp 404 Body.empty], db)) ∧
    (validId idStr = false →
      notesGetById idStr db = ([Ev.nextErr HErr.castError], db) ∧
      errorHandler HErr.castError = 400 ∧
      errorHandler HErr.castError ≠ 404 ∧ errorHandler HErr.castError ≠ 500) := by
  refine ⟨?_, ?_, ?_⟩
  · intro n hv hf
    simp [notesGetById, noteFindById, hv, hf]
  · intro hv hf
    simp [notesGetById, noteFindById, hv, hf]
  · intro hv
    refine ⟨?_, rfl, by decide, by decide⟩
    simp [notesGetById, noteFindById, hv]

/-- Witness for C7: the stored note is served with 200, and the malformed
23-character id from the repository's tests is rejected via `CastError`. -/
theorem C7_get_by_id_w :
    notesGetById idA db1 = ([Ev.resp 200 (Body.note noteX)], db1) ∧
    notesGetById "5a3d5da59070081a82a3445" db1 = ([Ev.nextErr HErr.castError], db1) :=
  ⟨(C7_get_by_id idA db1).1 noteX rfl rfl,
   ((C7_get_by_id "5a3d5da59070081a82a3445" db1).2.2 rfl).1⟩

/-- C9: for every creation request whose token verifies and carries a user id
matching no stored user, the lookup yields nothing, the dereference of the
null user raises a `TypeError` that is forwarded to the error handler, the
database is unchanged (no note persisted), and no 201 response is ever sent. -/
theorem C9_create_unknown_user
    (verify : String → Option DecodedToken) (auth : Option String)
    (body : ReqBody) (db : DB) (t : String) (uid : Nat)
    (h1 : getTokenFrom auth = some t)
    (h2 : verify t = some ⟨some uid⟩)
    (h3 : db.users.find? (fun v => v.id == uid) = none) :
    notesPost verify auth body db = ([Ev.nextErr HErr.typeError], db) ∧
    ∀ b : Body, Ev.resp 201 b ∉ (notesPost verify auth body db).1 := by
  have hmain : notesPost verify auth body db = ([Ev.nextErr HErr.typeError], db) := by
    simp [notesPost, jwtVerify, h1, h2, userFindById, h3]
  refine ⟨hmain, ?_⟩
  intro b
  rw [hmain]
  simp

/-- Witness for C9: a token for the unknown user id 99 against `db1`. -/
theorem C9_create_unknown_user_w :
    notesPost (fun _ => some ⟨some 99⟩) (some "Bearer t") ⟨some "hi", none⟩ db1 =
      ([Ev.nextErr HErr.typeError], db1) :=
  (C9_create_unknown_user (fun _ => some ⟨some 99⟩) (some "Bearer t") ⟨some "hi", none⟩
    db1 "t" 99 rfl rfl rfl).1

/-- C10: an absent authorization header, or one not starting with the exact
case-sensitive string `Bearer`, extracts a `null` token; verification of the
`null` token fails and is forwarded as an error, and the database is unchanged
(no note created) — for any verification function. When the header does begin
with `Bearer `, exactly the first (leading) occurrence of the substring
`Bearer ` is stripped: the remainder — any later `Bearer ` occurrences
included — is returned verbatim as the token. -/
theorem C10_token_extraction
    (verify : String → Option DecodedToken) (body : ReqBody) (db : DB)
    (a s : String) (hna : jsStartsWith a "Bearer" = false) :
    getTokenFrom none = none ∧
    getTokenFrom (some a) = none ∧
    notesPost verify none body db = ([Ev.nextErr HErr.jwtError], db) ∧
    notesPost verify (some a) body db = ([Ev.nextErr HErr.jwtError], db) ∧
    getTokenFrom (some ("Bearer " ++ s)) = some s := by
  have hga : getTokenFrom (some a) = none := by
    simp [getTokenFrom, hna]
  refine ⟨rfl, hga, ?_, ?_, getTokenFrom_strips_first s⟩
  · simp [notesPost, jwtVerify, getTokenFrom]
  · simp [notesPost, jwtVerify, hga]

/-- Witness for C10: the lowercase header `bearer x` extracts no token, and a
header whose remainder itself contains `Bearer ` keeps that second occurrence
intact. -/
theorem C10_token_extraction_w :
    getTokenFrom (some "bearer x") = none ∧
    getTokenFrom (some ("Bearer " ++ "Bearer t")) = some "Bearer t" :=
  ⟨(C10_token_extraction (fun _ => none) ⟨none, none⟩ db0 "bearer x" "Bearer t" rfl).2.1,
   (C10_token_extraction (fun _ => none) ⟨none, none⟩ db0 "bearer x" "Bearer t" rfl).2.2.2.2⟩

/-- C8 counterexample: when two stored notes share their content, deleting one
of them responds 204 but the deleted note's content still appears in the list
result, so "after a delete, the note's content is absent from the list" fails
as a universal statement. -/
theorem C8_delete_content_counterexample :
    (notesDelete idA db2).1 = [Ev.resp 204 Body.empty] ∧
    noteX.id = idA ∧ noteX ∈ db2.notes ∧
    noteX.content ∈ listContents (notesDelete idA db2).2 := by
  refine ⟨rfl, rfl, ?_, ?_⟩
  · simp [db2]
  · decide

/-- C8 (amended): for every well-formed id, DELETE responds 204 regardless of
whether a note with that id exists; afterwards no note with that id remains,
the deleted note's content is absent from the list result provided no other
note shares that content, and a second delete of the same id responds 204
again (idempotence). -/
theorem C8_delete_idempotent (idStr : String) (db : DB)
    (hv : validId idStr = true) :
    (notesDelete idStr db).1 = [Ev.resp 204 Body.empty] ∧
    (∀ n ∈ (notesDelete idStr db).2.notes, n.id ≠ idStr) ∧
    (∀ c, (∀ n ∈ db.notes, n.content = c → n.id = idStr) →
      c ∉ listContents (notesDelete idStr db).2) ∧
    (notesDelete idStr (notesDelete idStr db).2).1 = [Ev.resp 204 Body.empty] := by
  have hrun : notesDelete idStr db =
      ([Ev.resp 204 Body.empty],
       { db with notes := db.notes.filter (fun n => !(n.id == idStr)) }) := by
    simp [notesDelete, noteFindByIdAndRemove, hv]
  refine ⟨by rw [hrun], ?_, ?_, ?_⟩
  · intro n hn
    rw [hrun] at hn
    simp only [List.mem_filter, Bool.not_eq_eq_eq_not, Bool.not_true, beq_eq_false_iff_ne,
      ne_eq] at hn
    exact hn.2
  · intro c hc hmem
    rw [hrun] at hmem
    simp only [listContents, List.mem_map, List.mem_filter] at hmem
    obtain ⟨n, ⟨hn, hne⟩, hcc⟩ := hmem
    have : n.id = idStr := hc n hn hcc
    simp [this] at hne
  · rw [hrun]
    simp [notesDelete, noteFindByIdAndRemove, hv]

/-- Witness for the amended C8: deleting `idA` from `db2` responds 204, and so
does deleting it again from the resulting database. -/
theorem C8_delete_idempotent_w :
    (notesDelete idA db2).1 = [Ev.resp 204 Body.empty] ∧
    (notesDelete idA (notesDelete idA db2).2).1 = [Ev.resp 204 Body.empty] :=
  ⟨(C8_delete_idempotent idA db2 rfl).1,
   (C8_delete_idempotent idA db2 rfl).2.2.2⟩

/-- The note-store invariant unfolded to a proposition. -/
theorem dbInvB_iff (db : DB) :
    dbInvB db = true ↔ ∀ n ∈ db.notes, n.content ≠ "" ∧ ∃ u ∈ db.users, u.id = n.user := by
  simp [dbInvB, List.all_eq_true, List.any_eq_true]

/-- A user found by id is a member of the users collection. -/
theorem userFindById_mem (oid : Option Nat) (db : DB) (u : User)
    (h : userFindById oid db = some u) : u ∈ db.users := by
  rcases oid with _ | i
  · simp [userFindById] at h
  · simp only [userFindById] at h
    exact List.mem_of_find?_eq_some h

/-- Replacing one user record by another with the same id preserves which user
ids occur in the collection. -/
theorem users_map_replace_id (us : List User) (uid : Nat) (u2 : User) (x : Nat)
    (hid : u2.id = uid) (h : ∃ w ∈ us, w.id = x) :
    ∃ w2 ∈ us.map (fun v => if v.id == uid then u2 else v), w2.id = x := by
  obtain ⟨w, hw, hwx⟩ := h
  refine ⟨if w.id == uid then u2 else w, List.mem_map_of_mem _ hw, ?_⟩
  by_cases hc : w.id = uid
  · simp [hc, hid, ← hwx]
  · rw [if_neg (by simp [hc])]
    exact hwx

/-- The database after a creation request: either unchanged (some failure
path), or extended with the new note and the owner's updated record on the
success path. -/
theorem notesPost_snd (verify : String → Option DecodedToken) (auth : Option String)
    (body : ReqBody) (db : DB) :
    (notesPost verify auth body db).2 = db ∨
    ∃ d u c, jwtVerify verify (getTokenFrom auth) = .ok d ∧
      userFindById d.id db = some u ∧ body.content = some c ∧ c ≠ "" ∧
      (notesPost verify auth body db).2 =
        userSaveReplace { u with notes := u.notes ++ [genId db.nextNoteId] }
          { db with
            notes := db.notes ++ [⟨genId db.nextNoteId, c, body.important.getD false, u.id⟩],
            nextNoteId := db.nextNoteId + 1 } := by
  rcases hj : jwtVerify verify (getTokenFrom auth) with e | d
  · left
    simp [notesPost, hj]
  · rcases hu : userFindById d.id db with _ | u
    · left
      simp [notesPost, hj, hu]
    · rcases hc : body.content with _ | c
      · left
        simp [notesPost, hj, hu, noteSave, hc]
      · by_cases hce : c = ""
        · left
          simp [notesPost, hj, hu, noteSave, hc, hce]
        · right
          refine ⟨d, u, c, rfl, hu, rfl, hce, ?_⟩
          simp [notesPost, hj, hu, noteSave, hc, hce]

/-- The database after an update request: either unchanged (malformed id or no
matching note), or with the matched note's fields replaced by the present
body fields. -/
theorem notesPut_snd (idStr : String) (body : ReqBody) (db : DB) :
    (notesPut idStr body db).2 = db ∨
    ∃ n, db.notes.find? (fun m => m.id == idStr) = some n ∧
      (notesPut idStr body db).2 =
        { db with notes := db.notes.map (fun m =>
            if m.id == idStr then
              { n with content := body.content.getD n.content,
                       important := body.important.getD n.important }
            else m) } := by
  by_cases hv : validId idStr
  · rcases hf : db.notes.find? (fun m => m.id == idStr) with _ | n
    · left
      simp [notesPut, noteFindByIdAndUpdate, hv, hf]
    · right
      refine ⟨n, by first | rfl | exact hf, ?_⟩
      simp [notesPut, noteFindByIdAndUpdate, hv, hf]
  · left
    simp [notesPut, noteFindByIdAndUpdate, hv]

/-- C4 counterexample: the invariant holds of `db1`, yet an update request
that sets `content` to the empty string goes through (the store runs no
validators on updates), responds 200 with the emptied note, and leaves the
store with a persisted note of empty content — so the invariant is not
preserved by every write operation. -/
theorem C4_invariant_counterexample :
    dbInvB db1 = true ∧
    (notesPut idA ⟨some "", none⟩ db1).1 = [Ev.resp 200 (Body.note ⟨idA, "", false, 1⟩)] ∧
    dbInvB (notesPut idA ⟨some "", none⟩ db1).2 = false := by
  decide

/-- C4 (amended): every note persisted by the create handler has non-empty
content and a valid owner reference, and creation preserves the invariant;
the update handler preserves it as well except when the request sets
`content` to the empty string (updates bypass content validation). -/
theorem C4_invariant_preservation
    (verify : String → Option DecodedToken) (auth : Option String)
    (body : ReqBody) (idStr : String) (db : DB)
    (hinv : dbInvB db = true) :
    dbInvB (notesPost verify auth body db).2 = true ∧
    (body.content ≠ some "" → dbInvB (notesPut idStr body db).2 = true) := by
  rw [dbInvB_iff] at hinv
  constructor
  · rcases notesPost_snd verify auth body db with h | ⟨d, u, c, _, hu, _, hce, h2⟩
    · rw [h, dbInvB_iff]
      exact hinv
    · rw [h2, dbInvB_iff]
      intro n hn
      have humem : u ∈ db.users := userFindById_mem d.id db u hu
      simp only [userSaveReplace] at hn ⊢
      rcases List.mem_append.mp hn with hold | hnew
      · obtain ⟨hcnt, hown⟩ := hinv n hold
        exact ⟨hcnt, users_map_replace_id db.users u.id _ n.user rfl hown⟩
      · have : n = ⟨genId db.nextNoteId, c, body.important.getD false, u.id⟩ := by
          simpa using hnew
        subst this
        refine ⟨hce, users_map_replace_id db.users u.id _ u.id rfl ⟨u, humem, rfl⟩⟩
  · intro hbody
    rcases notesPut_snd idStr body db with h | ⟨n, hf, h2⟩
    · rw [h, dbInvB_iff]
      exact hinv
    · rw [h2, dbInvB_iff]
      intro m hm
      simp only [List.mem_map] at hm
      obtain ⟨m0, hm0, hme⟩ := hm
      have hn0 : n ∈ db.notes := List.mem_of_find?_eq_some hf
      by_cases hcond : m0.id == idStr
      · rw [if_pos hcond] at hme
        subst hme
        refine ⟨?_, (hinv n hn0).2⟩
        rcases hc : body.content with _ | s
        · simpa [hc] using (hinv n hn0).1
        · simp only [hc, Option.getD_some]
          intro hs
          exact hbody (by rw [hc, hs])
      · rw [if_neg hcond] at hme
        subst hme
        exact hinv m0 hm0

/-- Witness for the amended C4: a concrete successful creation and a concrete
non-empty update against `db1` both keep the invariant. -/
theorem C4_invariant_preservation_w :
    dbInvB (notesPost (fun _ => some ⟨some 1⟩) (some "Bearer t") ⟨some "hi", none⟩ db1).2 = true ∧
    dbInvB (notesPut idA ⟨some "hi", none⟩ db1).2 = true :=
  ⟨(C4_invariant_preservation (fun _ => some ⟨some 1⟩) (some "Bearer t")
      ⟨some "hi", none⟩ idA db1 rfl).1,
   (C4_invariant_preservation (fun _ => some ⟨some 1⟩) (some "Bearer t")
      ⟨some "hi", none⟩ idA db1 rfl).2 (by decide)⟩
